import Mathlib

/-!
# go-1-22-mux: routing two GET patterns through the Go 1.22 `net/http` multiplexer

The repository consists of `api/v1/hello.go` (the handler `HelloHandler`) and
`cmd/server/server.go` (the program entry point `main`, which registers two
method-and-path patterns on a fresh `http.ServeMux` and hands the mux to
`http.ListenAndServe`).

The development has three layers.

* `model`, `v1`, `server`: the repository's own packages, written after the Go text.
* `http`: the part of the Go 1.22 standard library that the program calls
  (`ResponseWriter`, `Request`, `ServeMux` registration and dispatch, `Error`,
  `NotFoundHandler`).  It is written after the standard library's behaviour, for the
  fragment of the pattern language that `main` uses: an optional method, an optional host
  and a path made of literal segments.
* theorems about the handlers, the route table and the process outcome.

Go `string`s are Lean `String`s, scanned as lists of characters; `[]byte` values are lists
of byte values (`Nat` below 256) obtained by UTF-8 encoding.  A Go interface value with
mutable state is a record of operations over an explicit state type.
-/

/-! ## Package `internal/model` -/

namespace model

/-- Modelled from the spec: the type `User` of package `internal/model`, whose declaration
is not among the source files.  The spec describes it as a named value object with the
single attribute `Name` (text); `hello.go` builds it with the field `Name`. -/
structure User where
  Name : String
deriving DecidableEq

end model

/-! ## Package `net/http` (standard library, Go 1.22) -/

namespace http

/-- Conversion `[]byte(s)`: the UTF-8 encoding of a string, as byte values. -/
def bytes (s : String) : List Nat :=
  (s.data.flatMap String.utf8EncodeChar).map UInt8.toNat

def StatusOK : Nat := 200
def StatusMovedPermanently : Nat := 301
def StatusBadRequest : Nat := 400
def StatusNotFound : Nat := 404
def StatusMethodNotAllowed : Nat := 405

/-- A status code in the success class, 200 to 299. -/
def isSuccess (code : Nat) : Bool := decide (200 ≤ code) && decide (code < 300)

/-- The type `http.Header` (`map[string][]string`), as an association list.  Every key
written in this development is already in canonical MIME form. -/
abbrev Header := List (String × List String)

/-- Go `Header.Set`: replace whatever the key held by the single value. -/
def Header.Set (h : Header) (key value : String) : Header :=
  (key, [value]) :: h.filter (fun kv => kv.1 != key)

/-- Go `Header.Get`: the first value stored under the key, or the empty string. -/
def Header.Get (h : Header) (key : String) : String :=
  match h.find? (fun kv => kv.1 == key) with
  | some (_, v :: _) => v
  | _ => ""

/-- The part of `url.URL` the multiplexer reads.  `EscapedPath` is the value of the method
`EscapedPath()`: the path in the form it has in the request line (for
`GET /v1/hello?x=1 HTTP/1.1` it is `/v1/hello`). -/
structure URL where
  Host : String := ""
  EscapedPath : String
  RawQuery : String := ""
deriving DecidableEq

/-- The type `http.Request` as the server hands it to a handler.  `RequestURI` is the
unmodified request target of the request line, and the server parses `URL` from it
(`url.ParseRequestURI`; for `CONNECT` with an authority as target, from `http://` followed
by the target).  Only the target `*` parses to the path `*`, and a target parsed as an
authority has the empty path, so a request whose target is `*` has the path `*` or the
empty path: the field `target` records that link between the two fields. -/
structure Request where
  Method : String
  URL : URL
  ProtoMajor : Nat := 1
  ProtoMinor : Nat := 1
  Header : Header := []
  Body : List Nat := []
  Host : String := ""
  RequestURI : String
  target : RequestURI = "*" → URL.EscapedPath = "*" ∨ URL.EscapedPath = ""

/-- Go `Request.ProtoAtLeast`. -/
def Request.ProtoAtLeast (r : Request) (major minor : Nat) : Bool :=
  decide (r.ProtoMajor > major) || (decide (r.ProtoMajor = major) && decide (r.ProtoMinor ≥ minor))

/-- The Go type `error`; `none` is `nil`. -/
abbrev error := Option String

/-- The interface `http.ResponseWriter` over a writer with state `σ`.  `Header()` returns a
map that the caller mutates in place; `updateHeader` is that mutation. -/
structure ResponseWriter (σ : Type) where
  Header : σ → http.Header
  updateHeader : (http.Header → http.Header) → σ → σ
  Write : List Nat → σ → (Nat × error) × σ
  WriteHeader : Nat → σ → σ

/-- The type of a handler function `func(ResponseWriter, *Request)`: for a writer of any
implementation, a transformation of that writer's state. -/
abbrev HandlerFunc : Type 1 := (σ : Type) → ResponseWriter σ → Request → σ → σ

/-- What a client observes of a response: the status line, the header fields that the
handler set and the body that was written.  Fields that the server adds on its own
(`Content-Type` found by sniffing the first bytes written, `Date`, `Content-Length`) are
not part of this record. -/
structure Response where
  wroteHeader : Bool := false
  status : Nat := 0
  header : Header := []
  body : List Nat := []
deriving DecidableEq

/-- A response to which nothing has been written yet. -/
def Response.empty : Response := {}

/-- The method `WriteHeader` on a response: the first call fixes the status, later calls are
ignored. -/
def Response.WriteHeader (code : Nat) (s : Response) : Response :=
  if s.wroteHeader then s else { s with wroteHeader := true, status := code }

/-- The method `Write` on a response: "if WriteHeader has not yet been called, Write calls
WriteHeader(http.StatusOK) before writing the data"; all bytes are accepted.  The header
map is left as the handler set it: no `Content-Type` is derived from the data. -/
def Response.Write (b : List Nat) (s : Response) : (Nat × error) × Response :=
  let s := Response.WriteHeader StatusOK s
  ((b.length, none), { s with body := s.body ++ b })

/-- The status the client receives once the handler has returned: the one written, or
200 when the handler wrote none. -/
def Response.statusCode (s : Response) : Nat :=
  if s.wroteHeader then s.status else StatusOK

/-- The response writer that records a `Response`. -/
def recorder : ResponseWriter Response where
  Header := fun s => s.header
  updateHeader := fun f s => if s.wroteHeader then s else { s with header := f s.header }
  Write := Response.Write
  WriteHeader := Response.WriteHeader

/-- One call on a `ResponseWriter`. -/
inductive Call where
  | updateHeader
  | Write (b : List Nat)
  | WriteHeader (code : Nat)
deriving DecidableEq

/-- A writer that behaves as `w` and also logs every call made on it, oldest first. -/
def traced {σ : Type} (w : ResponseWriter σ) : ResponseWriter (σ × List Call) where
  Header := fun s => w.Header s.1
  updateHeader := fun f s => (w.updateHeader f s.1, s.2 ++ [Call.updateHeader])
  Write := fun b s => ((w.Write b s.1).1, ((w.Write b s.1).2, s.2 ++ [Call.Write b]))
  WriteHeader := fun code s => (w.WriteHeader code s.1, s.2 ++ [Call.WriteHeader code])

/-- A writer whose every `Write` fails: it accepts `n` bytes and returns the error `e`,
recording only how often it was called. -/
def failing (n : Nat) (e : String) : ResponseWriter Nat where
  Header := fun _ => []
  updateHeader := fun _ s => s
  Write := fun _ s => ((n, some e), s + 1)
  WriteHeader := fun _ s => s

/-- Go `http.Error` (Go 1.22): two header fields, the status line, the message and a newline
in a single `Write` whose result is dropped. -/
def Error {σ : Type} (w : ResponseWriter σ) (err : String) (code : Nat) (s : σ) : σ :=
  let s := w.updateHeader (fun h => Header.Set h "Content-Type" "text/plain; charset=utf-8") s
  let s := w.updateHeader (fun h => Header.Set h "X-Content-Type-Options" "nosniff") s
  let s := w.WriteHeader code s
  (w.Write (bytes (err ++ "\n")) s).2

/-- Go `http.NotFound`. -/
def NotFound {σ : Type} (w : ResponseWriter σ) (_r : Request) (s : σ) : σ :=
  Error w "404 page not found" StatusNotFound s

/-! ### Paths: `path.Clean`, `cleanPath`, percent-decoding -/

/-- Cut a string at its first slash: what precedes it, and the rest from the slash on
(empty when there is no slash). -/
def cutSlash : List Char → List Char × List Char
  | [] => ([], [])
  | c :: cs => if c = '/' then ([], c :: cs) else ((c :: (cutSlash cs).1), (cutSlash cs).2)

/-- The elements of a path: the pieces between slashes. -/
def elements : List Char → List (List Char)
  | [] => [[]]
  | c :: cs =>
    if c = '/' then [] :: elements cs
    else match elements cs with
      | [] => [[c]]
      | e :: es => (c :: e) :: es

/-- One step of `path.Clean` on the elements kept so far (innermost first): empty and `.`
elements are dropped, `..` removes the last real element, or is dropped at the root of a
rooted path, or is kept in front of a relative one. -/
def cleanStep (rooted : Bool) (kept : List (List Char)) (e : List Char) : List (List Char) :=
  if e = [] ∨ e = ['.'] then kept
  else if e = ['.', '.'] then
    match kept with
    | [] => if rooted then [] else [e]
    | k :: ks => if k = ['.', '.'] then e :: k :: ks else ks
  else e :: kept

/-- Join elements with slashes. -/
def joinSlash : List (List Char) → List Char
  | [] => []
  | [e] => e
  | e :: es => e ++ '/' :: joinSlash es

/-- Go `path.Clean`: the shortest path equivalent to the argument by purely lexical
processing. -/
def Clean (p : List Char) : List Char :=
  if p = [] then ['.']
  else
    let rooted := decide (p.head? = some '/')
    let kept := ((elements p).foldl (cleanStep rooted) []).reverse
    if rooted then '/' :: joinSlash kept
    else if kept = [] then ['.'] else joinSlash kept

/-- Go `cleanPath` of `net/http`: the canonical path for `p`, rooted, without `.` and `..`
elements or repeated slashes, keeping a trailing slash. -/
def cleanPath (p : List Char) : List Char :=
  if p = [] then ['/']
  else
    let p := if p.head? ≠ some '/' then '/' :: p else p
    let np := Clean p
    if p.getLast? = some '/' ∧ np ≠ ['/'] then
      (if p.length = np.length + 1 ∧ np.isPrefixOf p then p else np ++ ['/'])
    else np

/-- The value of a hexadecimal digit (`ishex` and `unhex`). -/
def unhex (c : Char) : Option Nat :=
  if '0' ≤ c ∧ c ≤ '9' then some (c.toNat - '0'.toNat)
  else if 'a' ≤ c ∧ c ≤ 'f' then some (c.toNat - 'a'.toNat + 10)
  else if 'A' ≤ c ∧ c ≤ 'F' then some (c.toNat - 'A'.toNat + 10)
  else none

/-- Go `url.PathUnescape`: every `%XX` becomes the byte `XX`; a percent sign that is not
followed by two hexadecimal digits is an error (`none`). -/
def PathUnescape : List Char → Option (List Char)
  | [] => some []
  | '%' :: a :: b :: rest =>
    match unhex a, unhex b, PathUnescape rest with
    | some x, some y, some r => some (Char.ofNat (16 * x + y) :: r)
    | _, _, _ => none
  | c :: rest =>
    if c = '%' then none
    else match PathUnescape rest with
      | some r => some (c :: r)
      | none => none

/-- Go `pathUnescape` of `net/http`: the decoded segment, or the segment itself when it is
invalidly escaped. -/
def pathUnescape (seg : List Char) : List Char :=
  (PathUnescape seg).getD seg

/-- Go `firstSegment`: the first segment of a path, decoded, and the rest of the path.  The
path consisting of a single slash yields the segment `/`. -/
def firstSegment (path : List Char) : List Char × List Char :=
  if path = ['/'] then (['/'], [])
  else
    let p := path.drop 1
    (pathUnescape (cutSlash p).1, (cutSlash p).2)

/-! ### Patterns -/

/-- The type `pattern` for patterns whose segments are all literals. -/
structure pattern where
  str : String
  method : String
  host : String
  segments : List String
deriving DecidableEq

/-- Go `isTokenRune`: the characters allowed in an HTTP token. -/
def isToken (c : Char) : Bool :=
  c.isAlphanum || ['!', '#', '$', '%', '&', Char.ofNat 39, '*', '+', '-', '.', '^', '_',
    Char.ofNat 96, '|', '~'].contains c

/-- Go `validMethod`: a method is a non-empty token. -/
def validMethod (method : List Char) : Bool :=
  !method.isEmpty && method.all isToken

/-- Cut a string at its first space or tab (`strings.IndexAny(s, " \t")`): what precedes
it and what follows it, or `none` when there is neither. -/
def cutBlank : List Char → Option (List Char × List Char)
  | [] => none
  | c :: cs =>
    if c = ' ' ∨ c = '\t' then some ([], cs)
    else match cutBlank cs with
      | some (a, b) => some (c :: a, b)
      | none => none

/-- Go `strings.TrimLeft(s, " \t")`. -/
def trimLeftBlank : List Char → List Char
  | [] => []
  | c :: cs => if c = ' ' ∨ c = '\t' then trimLeftBlank cs else c :: cs

/-- The segment loop of `parsePattern`.  `rest` is empty or starts with a slash; each round
consumes the slash and the segment after it.  Wildcard segments and a trailing slash are
features of the pattern language outside this fragment and are reported as such. -/
def parseSegments : Nat → List Char → Except String (List String)
  | 0, _ => .error "pattern too long"
  | fuel + 1, rest =>
    if rest = [] then .ok []
    else
      let rest := rest.drop 1
      if rest = [] then .error "trailing slash (multi wildcard): not in the literal fragment"
      else
        let seg := (cutSlash rest).1
        let rest := (cutSlash rest).2
        if seg.contains (Char.ofNat 123) then .error "wildcard: not in the literal fragment"
        else
          match parseSegments fuel rest with
          | .ok segs => .ok (String.mk (pathUnescape seg) :: segs)
          | .error e => .error e

/-- Go `parsePattern`: `[METHOD ][HOST]/[PATH]`. -/
def parsePattern (s : String) : Except String pattern :=
  if s.data = [] then .error "empty pattern"
  else
    let method := match cutBlank s.data with
      | some (m, _) => m
      | none => []
    let rest := match cutBlank s.data with
      | some (_, r) => trimLeftBlank r
      | none => s.data
    if method ≠ [] ∧ validMethod method = false then .error "invalid method"
    else if ¬ rest.contains '/' then .error "host/path missing /"
    else
      let host := (cutSlash rest).1
      let rest := (cutSlash rest).2
      if host.contains (Char.ofNat 123) then .error "host contains a brace (missing initial '/'?)"
      else if method ≠ [] ∧ method ≠ "CONNECT".data ∧ rest ≠ cleanPath rest then
        .error "non-CONNECT pattern with unclean path can never match"
      else
        match parseSegments (rest.length + 1) rest with
        | .ok segs => .ok { str := s, method := String.mk method, host := String.mk host, segments := segs }
        | .error e => .error e

/-- How the sets of requests matched by two patterns relate. -/
inductive relationship where
  | equivalent
  | moreGeneral
  | moreSpecific
  | disjoint
  | overlaps
deriving DecidableEq

/-- Go `compareMethods`. -/
def pattern.compareMethods (p1 p2 : pattern) : relationship :=
  if p1.method = p2.method then .equivalent
  else if p1.method = "" then .moreGeneral
  else if p2.method = "" then .moreSpecific
  else if p1.method = "GET" ∧ p2.method = "HEAD" then .moreGeneral
  else if p2.method = "GET" ∧ p1.method = "HEAD" then .moreSpecific
  else .disjoint

/-- Go `comparePaths` for literal segments: two such paths match the same single path or have
no path in common. -/
def pattern.comparePaths (p1 p2 : pattern) : relationship :=
  if p1.segments = p2.segments then .equivalent else .disjoint

/-- Go `inverseRelationship`. -/
def inverseRelationship : relationship → relationship
  | .moreSpecific => .moreGeneral
  | .moreGeneral => .moreSpecific
  | r => r

/-- Go `combineRelationships`. -/
def combineRelationships (r1 r2 : relationship) : relationship :=
  match r1 with
  | .equivalent => r2
  | .disjoint => .disjoint
  | .overlaps => if r2 = .disjoint then .disjoint else .overlaps
  | _ =>
    if r2 = .equivalent then r1
    else if r2 = inverseRelationship r1 then .overlaps
    else r2

/-- Go `comparePathsAndMethods`. -/
def pattern.comparePathsAndMethods (p1 p2 : pattern) : relationship :=
  let mrel := p1.compareMethods p2
  if mrel = .disjoint then .disjoint
  else combineRelationships mrel (p1.comparePaths p2)

/-- Go `conflictsWith`: two patterns conflict when they match the same requests, or overlap
with neither the more specific. -/
def pattern.conflictsWith (p1 p2 : pattern) : Bool :=
  if p1.host ≠ p2.host then false
  else
    let rel := p1.comparePathsAndMethods p2
    decide (rel = .equivalent) || decide (rel = .overlaps)

/-- The descent of `matchPath` along one pattern's segments: the routing tree of literal
patterns is a trie keyed by segment, and a path reaches a pattern's leaf exactly when its
successive first segments are the pattern's segments and nothing is left over. -/
def matchPath : List String → List Char → Bool
  | [], path => decide (path = [])
  | seg :: segs, path =>
    if path = [] then false
    else decide ((firstSegment path).1 = seg.data) && matchPath segs (firstSegment path).2

/-! ### Handlers and the multiplexer -/

/-- The handlers a `ServeMux` can answer with: a registered handler function, the redirect
handler, the not-found handler, and the handler that `findHandler` builds when the path is
known under other methods only.  For the redirect handler only the status code is kept:
the `Location` header and the HTML body that `http.Redirect` computes from the target are
not part of this model. -/
inductive Handler : Type 1 where
  | func (f : HandlerFunc)
  | RedirectHandler (code : Nat)
  | NotFoundHandler
  | methodNotAllowed (allowedMethods : List String)

/-- Go `strings.Join(elems, ", ")`. -/
def joinComma : List String → String
  | [] => ""
  | [m] => m
  | m :: ms => m ++ ", " ++ joinComma ms

/-- Go `Handler.ServeHTTP`. -/
def Handler.ServeHTTP (h : Handler) {σ : Type} (w : ResponseWriter σ) (r : Request) (s : σ) : σ :=
  match h with
  | .func f => f σ w r s
  | .RedirectHandler code => w.WriteHeader code s
  | .NotFoundHandler => NotFound w r s
  | .methodNotAllowed allowedMethods =>
    let s := w.updateHeader (fun h => Header.Set h "Allow" (joinComma allowedMethods)) s
    Error w "Method Not Allowed" StatusMethodNotAllowed s

/-- The type `ServeMux`: the registered patterns with their handlers, in registration
order.  (The routing tree and the conflict index of the library are derived from this
list; lookups below go through the list.) -/
structure ServeMux where
  patterns : List (pattern × Handler)

/-- Go `http.NewServeMux`. -/
def NewServeMux : ServeMux := { patterns := [] }

/-- Go `registerErr`: parse the pattern, refuse it when it conflicts with a registered one,
else add it.  (Message texts are shortened.) -/
def ServeMux.registerErr (mux : ServeMux) (patstr : String) (handler : Handler) :
    Except String ServeMux :=
  if patstr = "" then .error "http: invalid pattern"
  else
    match parsePattern patstr with
    | .error e => .error ("parsing " ++ patstr ++ ": " ++ e)
    | .ok pat =>
      match mux.patterns.find? (fun e => pat.conflictsWith e.1) with
      | some e => .error ("pattern " ++ pat.str ++ " conflicts with pattern " ++ e.1.str)
      | none => .ok { patterns := mux.patterns ++ [(pat, handler)] }

/-- Go `ServeMux.HandleFunc`: registers the handler function for the pattern and panics
(`Except.error`) when the pattern is invalid or conflicts. -/
def ServeMux.HandleFunc (mux : ServeMux) (pattern : String) (handler : HandlerFunc) :
    Except String ServeMux :=
  mux.registerErr pattern (Handler.func handler)

/-- The leaf for a host, a method and a path: the registered pattern with that host and
method whose segments the path spells out. -/
def ServeMux.findLeaf (mux : ServeMux) (host method : String) (path : List Char) :
    Option (pattern × Handler) :=
  mux.patterns.find? (fun e => e.1.host == host && e.1.method == method && matchPath e.1.segments path)

/-- Go `matchMethodAndPath`: the exact method first, then `GET` for a `HEAD` request, then the
patterns without a method. -/
def ServeMux.matchMethodAndPath (mux : ServeMux) (host method : String) (path : List Char) :
    Option (pattern × Handler) :=
  match mux.findLeaf host method path with
  | some l => some l
  | none =>
    match (if method = "HEAD" then mux.findLeaf host "GET" path else none) with
    | some l => some l
    | none => mux.findLeaf host "" path

/-- Go `routingNode.match`: patterns that name the host first, then patterns without host. -/
def ServeMux.treeMatch (mux : ServeMux) (host method : String) (path : List Char) :
    Option (pattern × Handler) :=
  match (if host ≠ "" then mux.matchMethodAndPath host method path else none) with
  | some l => some l
  | none => mux.matchMethodAndPath "" method path

/-- Go `matchOrRedirect`: the match for the path, and whether the request is to be redirected
to the path with a trailing slash (only tried when `redirect` is set, which stands for a
non-nil URL argument). -/
def ServeMux.matchOrRedirect (mux : ServeMux) (host method : String) (path : List Char)
    (redirect : Bool) : Option (pattern × Handler) × Bool :=
  let n := mux.treeMatch host method path
  if n.isNone ∧ redirect = true ∧ path.getLast? ≠ some '/' then
    if (mux.treeMatch host method (path ++ ['/'])).isSome then (none, true) else (n, false)
  else (n, false)

/-- Strict order of strings by code point, which is the byte order of their UTF-8 form. -/
def strLess : List Char → List Char → Bool
  | _, [] => false
  | [], _ :: _ => true
  | a :: as, b :: bs => decide (a.toNat < b.toNat) || (decide (a = b) && strLess as bs)

/-- Insert a key into a sorted list without duplicates. -/
def insertKey (m : String) : List String → List String
  | [] => [m]
  | x :: xs =>
    if m = x then x :: xs
    else if strLess m.data x.data then m :: x :: xs
    else x :: insertKey m xs

/-- The sorted keys of the set holding the given strings. -/
def sortedKeys (ms : List String) : List String :=
  ms.foldr insertKey []

/-- The methods under which a host has a pattern for the path (`matchingMethodsPath`;
patterns without a method are not looked at). -/
def ServeMux.methodsAt (mux : ServeMux) (host : String) (path : List Char) : List String :=
  (mux.patterns.filter (fun e => e.1.host == host && e.1.method != "" &&
    matchPath e.1.segments path)).map (fun e => e.1.method)

/-- Go `routingNode.matchingMethods`, as the list of methods it adds to the set. -/
def ServeMux.treeMatchingMethods (mux : ServeMux) (host : String) (path : List Char) :
    List String :=
  let ms := (if host ≠ "" then mux.methodsAt host path else []) ++ mux.methodsAt "" path
  if ms.contains "GET" then ms ++ ["HEAD"] else ms

/-- Go `ServeMux.matchingMethods`: the sorted methods of the patterns that match the host and
the path, or the path with a trailing slash added. -/
def ServeMux.matchingMethods (mux : ServeMux) (host : String) (path : List Char) : List String :=
  sortedKeys (mux.treeMatchingMethods host path ++
    (if path.getLast? ≠ some '/' then mux.treeMatchingMethods host (path ++ ['/']) else []))

/-- Index of the last occurrence of a character. -/
def lastIndex (s : List Char) (c : Char) : Option Nat :=
  match s.reverse.indexOf? c with
  | some i => some (s.length - 1 - i)
  | none => none

/-- Go `net.SplitHostPort`: the host and the port of `host:port`, `[host]:port`. -/
def SplitHostPort (hostport : List Char) : Option (List Char × List Char) :=
  match lastIndex hostport ':' with
  | none => none
  | some i =>
    if hostport.head? = some '[' then
      match hostport.indexOf? ']' with
      | none => none
      | some e =>
        if e + 1 = i then
          if ((hostport.drop 1).contains '[') || ((hostport.drop (e + 1)).contains ']') then none
          else some ((hostport.take e).drop 1, hostport.drop (i + 1))
        else none
    else
      let host := hostport.take i
      if host.contains ':' then none
      else if hostport.contains '[' || hostport.contains ']' then none
      else some (host, hostport.drop (i + 1))

/-- Go `stripHostPort`: the host without its port; unchanged when there is no port or the
value cannot be split. -/
def stripHostPort (h : String) : String :=
  if ¬ h.data.contains ':' then h
  else match SplitHostPort h.data with
    | some (host, _) => String.mk host
    | none => h

/-- The end of `findHandler`: the matched leaf's handler and pattern, or, without a match,
the method-not-allowed handler when other methods match and the not-found handler
otherwise. -/
def ServeMux.leafOrError (mux : ServeMux) (n : Option (pattern × Handler)) (host : String)
    (path : List Char) : Handler × Option pattern :=
  match n with
  | some l => (l.2, some l.1)
  | none =>
    let allowedMethods := mux.matchingMethods host path
    if allowedMethods.length > 0 then (Handler.methodNotAllowed allowedMethods, none)
    else (Handler.NotFoundHandler, none)

/-- Go `ServeMux.findHandler`: the handler for the request and the pattern it matched.
`CONNECT` requests are matched as they are; every other request has the port stripped from
its host and its path cleaned, and is redirected when the cleaned path differs. -/
def ServeMux.findHandler (mux : ServeMux) (r : Request) : Handler × Option pattern :=
  let host := r.URL.Host
  let escapedPath := r.URL.EscapedPath.data
  if r.Method = "CONNECT" then
    if (mux.matchOrRedirect host r.Method escapedPath true).2 then
      (Handler.RedirectHandler StatusMovedPermanently, none)
    else
      mux.leafOrError (mux.matchOrRedirect r.Host r.Method escapedPath false).1 host escapedPath
  else
    let host := stripHostPort r.Host
    let path := cleanPath escapedPath
    if (mux.matchOrRedirect host r.Method path true).2 then
      (Handler.RedirectHandler StatusMovedPermanently, none)
    else if path ≠ escapedPath then
      (Handler.RedirectHandler StatusMovedPermanently, none)
    else
      mux.leafOrError (mux.matchOrRedirect host r.Method path true).1 host path

/-- Go `ServeMux.ServeHTTP`: a request whose target is `*` is answered 400; any other is
passed to the handler that `findHandler` selects. -/
def ServeMux.ServeHTTP (mux : ServeMux) {σ : Type} (w : ResponseWriter σ) (r : Request)
    (s : σ) : σ :=
  if r.RequestURI = "*" then
    let s := if r.ProtoAtLeast 1 1 then
      w.updateHeader (fun h => Header.Set h "Connection" "close") s else s
    w.WriteHeader StatusBadRequest s
  else
    (mux.findHandler r).1.ServeHTTP w r s

/-- The response a client gets from the mux for a request: `ServeHTTP` run on a fresh
recording writer. -/
def ServeMux.respond (mux : ServeMux) (r : Request) : Response :=
  mux.ServeHTTP recorder r Response.empty

end http

/-! ## Package `api/v1` -/

namespace v1

open http

/-- The function `HelloHandler` of `api/v1/hello.go`: builds the user, then makes one call of `w.Write`
with the greeting and drops the `(n, err)` it returns.  The request is not read. -/
def HelloHandler : HandlerFunc := fun _ w _r s =>
  -- Create a new user.
  let user : model.User := { Name := "World" }
  -- Write a response to the client.
  (w.Write (bytes ("Hello, " ++ user.Name ++ "!")) s).2

/-- Modelled from the spec: the handler `GoodbyeHandler` of package `api/v1`, which `main`
registers but whose definition is not among the source files.  The spec gives it the
"same contract shape" as the hello handler "with a complementary response body (e.g.,
Goodbye, World!)"; the example literal is the one taken here. -/
def GoodbyeHandler : HandlerFunc := fun _ w _r s =>
  let user : model.User := { Name := "World" }
  (w.Write (bytes ("Goodbye, " ++ user.Name ++ "!")) s).2

end v1


/-! ## The server's request loop and sample requests -/

namespace http

/-- The server's request loop for one handler: one invocation per request, each on a fresh
response, in the order of arrival. -/
def invokeEach (h : HandlerFunc) : List Request → List Response
  | [] => []
  | r :: rs => h Response recorder r Response.empty :: invokeEach h rs

/-- A request with the given method and path, as a client sends it to `host`. -/
def sampleRequest (method path : String) (h : path ≠ "*") : Request :=
  { Method := method
    URL := { EscapedPath := path }
    Host := "localhost:8080"
    RequestURI := path
    target := fun e => absurd e h }

/-- The request `OPTIONS * HTTP/1.1`. -/
def optionsAsterisk : Request :=
  { Method := "OPTIONS"
    URL := { EscapedPath := "*" }
    Host := "localhost:8080"
    RequestURI := "*"
    target := fun _ => Or.inl rfl }

end http

/-! ## Package `main` (`cmd/server`) -/

namespace server

open http

/-- How the process ends: its exit status, what the runtime printed on standard error, and
the call `http.ListenAndServe(addr, handler)` it made, if it got that far. -/
structure Outcome where
  exitCode : Nat
  stderr : List String
  listen : Option (String × ServeMux)

/-- Lines 10 to 12 of `server.go`: the mux that `main` builds.  `Except.error` is a panic
raised by `HandleFunc`. -/
def mux : Except String ServeMux := do
  let mux := NewServeMux
  let mux ← mux.HandleFunc "GET /v1/hello" v1.HelloHandler
  let mux ← mux.HandleFunc "GET /v1/goodbye" v1.GoodbyeHandler
  pure mux

/-- The function `main` of `server.go`, given the behaviour of `http.ListenAndServe` (the
error it returns when it stops).  A panic during registration ends the process with
status 2 and the panic on standard error.  Otherwise `ListenAndServe` is called; `main`
drops its result and returns, and a Go program whose `main` returns exits with status 0. -/
def main (ListenAndServe : String → ServeMux → error) : Outcome :=
  match mux with
  | .error e => { exitCode := 2, stderr := ["panic: " ++ e], listen := none }
  | .ok mux =>
    let _ := ListenAndServe ":8080" mux
    { exitCode := 0, stderr := [], listen := some (":8080", mux) }

/-- The route table that the two registrations produce, written out: each pattern parsed
into method, host and segments, with its handler (`mux_eq` proves that this is the value
of `mux`). -/
def routes : ServeMux :=
  { patterns := [
      ({ str := "GET /v1/hello", method := "GET", host := "", segments := ["v1", "hello"] },
        Handler.func v1.HelloHandler),
      ({ str := "GET /v1/goodbye", method := "GET", host := "", segments := ["v1", "goodbye"] },
        Handler.func v1.GoodbyeHandler)] }

end server

/-! ## Lemmas on paths and segments -/

namespace http

theorem cutSlash_append (t : List Char) : (cutSlash t).1 ++ (cutSlash t).2 = t := by
  induction t with
  | nil => rfl
  | cons c cs ih =>
    by_cases h : c = '/'
    · simp [cutSlash, h]
    · simp [cutSlash, h, ih]

theorem cutSlash_rest (t : List Char) :
    (cutSlash t).2 = [] ∨ ∃ u, (cutSlash t).2 = '/' :: u := by
  induction t with
  | nil => left; rfl
  | cons c cs ih =>
    by_cases h : c = '/'
    · right; exact ⟨cs, by simp [cutSlash, h]⟩
    · simpa [cutSlash, h] using ih

theorem cutSlash_fst_mem (t : List Char) (x : Char) (hx : x ∈ (cutSlash t).1) : x ∈ t := by
  rw [← cutSlash_append t]
  exact List.mem_append_left _ hx

theorem PathUnescape_of_no_percent (s : List Char) (h : '%' ∉ s) : PathUnescape s = some s := by
  induction s with
  | nil => rfl
  | cons c cs ih =>
    have hc : c ≠ '%' := fun e => h (by simp [e])
    have hcs : '%' ∉ cs := fun e => h (List.mem_cons_of_mem _ e)
    rw [PathUnescape]
    · simp [hc, ih hcs]
    · intro a b rest e _
      exact hc e

theorem pathUnescape_of_no_percent (s : List Char) (h : '%' ∉ s) : pathUnescape s = s := by
  simp [pathUnescape, PathUnescape_of_no_percent s h]

theorem firstSegment_literal (c : Char) (t seg : List Char) (hseg : seg ≠ ['/'])
    (hp : '%' ∉ t) (h : (firstSegment (c :: t)).1 = seg) :
    t = seg ++ (firstSegment (c :: t)).2 ∧
      ((firstSegment (c :: t)).2 = [] ∨ ∃ u, (firstSegment (c :: t)).2 = '/' :: u) := by
  unfold firstSegment at h ⊢
  by_cases hpath : c :: t = ['/']
  · rw [if_pos hpath] at h
    exact absurd h.symm hseg
  · rw [if_neg hpath] at h
    rw [if_neg hpath]
    simp only [List.drop_succ_cons, List.drop_zero] at h ⊢
    have hfree : '%' ∉ (cutSlash t).1 := fun e => hp (cutSlash_fst_mem t _ e)
    rw [pathUnescape_of_no_percent _ hfree] at h
    refine ⟨?_, cutSlash_rest t⟩
    rw [← h]
    exact (cutSlash_append t).symm

/-- A path without percent signs that spells out two literal segments is, after its first
character, the two segments joined by a slash. -/
theorem matchPath_pair (a b : String) (p : List Char) (ha : a.data ≠ ['/'])
    (hb : b.data ≠ ['/']) (hp : '%' ∉ p) (h : matchPath [a, b] p = true) :
    ∃ c, p = c :: (a.data ++ '/' :: b.data) := by
  cases p with
  | nil => simp [matchPath] at h
  | cons c t =>
    simp only [matchPath, List.cons_ne_nil, if_false, Bool.and_eq_true, decide_eq_true_eq,
      reduceCtorEq] at h
    obtain ⟨h1, h2⟩ := h
    have ht : '%' ∉ t := fun e => hp (List.mem_cons_of_mem _ e)
    obtain ⟨e1, r1⟩ := firstSegment_literal c t a.data ha ht h1
    generalize (firstSegment (c :: t)).2 = rest at e1 r1 h2
    rcases r1 with r1 | ⟨u, r1⟩
    · subst r1
      simp at h2
    · subst r1
      simp only [List.cons_ne_nil, if_false, Bool.and_eq_true, decide_eq_true_eq,
        reduceCtorEq] at h2
      obtain ⟨h3, h4⟩ := h2
      have hu : '%' ∉ u := by
        intro e
        apply ht
        rw [e1]
        exact List.mem_append_right _ (List.mem_cons_of_mem _ e)
      obtain ⟨e2, -⟩ := firstSegment_literal '/' u b.data hb hu h3
      rw [h4, List.append_nil] at e2
      exact ⟨c, by rw [e1, e2]⟩

theorem cutSlash_fst_no_slash (t : List Char) : '/' ∉ (cutSlash t).1 := by
  induction t with
  | nil => simp [cutSlash]
  | cons c cs ih =>
    by_cases h : c = '/'
    · simp [cutSlash, h]
    · simp only [cutSlash, if_neg h, List.mem_cons, not_or]
      exact ⟨fun e => h e.symm, ih⟩

theorem firstSegment_snd (c : Char) (t : List Char) :
    (firstSegment (c :: t)).2 = [] ∨
      ∃ u, (firstSegment (c :: t)).2 = '/' :: u ∧ ∃ v, t = v ++ '/' :: u := by
  unfold firstSegment
  by_cases hpath : c :: t = ['/']
  · left
    rw [if_pos hpath]
  · rw [if_neg hpath]
    simp only [List.drop_succ_cons, List.drop_zero]
    rcases cutSlash_rest t with h | ⟨u, h⟩
    · left; exact h
    · right
      refine ⟨u, h, (cutSlash t).1, ?_⟩
      rw [← h]
      exact (cutSlash_append t).symm

/-- A path that spells out two literal segments does not end in a slash, percent signs or
not. -/
theorem matchPath_pair_last (a b : String) (q : List Char) (hb : b.data ≠ ['/'])
    (h : matchPath [a, b] q = true) : q.getLast? ≠ some '/' := by
  cases q with
  | nil => simp [matchPath] at h
  | cons c t =>
    simp only [matchPath, List.cons_ne_nil, if_false, Bool.and_eq_true, decide_eq_true_eq,
      reduceCtorEq] at h
    obtain ⟨-, h2⟩ := h
    rcases firstSegment_snd c t with r0 | ⟨u, r1, v, hv⟩
    · rw [r0] at h2
      simp at h2
    · rw [r1] at h2
      simp only [List.cons_ne_nil, if_false, Bool.and_eq_true, decide_eq_true_eq,
        reduceCtorEq] at h2
      obtain ⟨h3, h4⟩ := h2
      cases u with
      | nil =>
        have e : (firstSegment ['/']).1 = ['/'] := rfl
        exact absurd (e.symm.trans h3) (Ne.symm hb)
      | cons x xs =>
        have hne : ('/' :: x :: xs) ≠ ['/'] := by simp
        unfold firstSegment at h4
        rw [if_neg hne] at h4
        simp only [List.drop_succ_cons, List.drop_zero] at h4
        have hu : (cutSlash (x :: xs)).1 = x :: xs := by
          have := cutSlash_append (x :: xs)
          rw [h4, List.append_nil] at this
          exact this
        have hno : '/' ∉ x :: xs := by
          rw [← hu]
          exact cutSlash_fst_no_slash (x :: xs)
        rw [hv, show c :: (v ++ '/' :: x :: xs) = (c :: (v ++ ['/'])) ++ (x :: xs) by simp,
          List.getLast?_append_of_ne_nil _ (List.cons_ne_nil x xs)]
        intro hl
        exact hno (List.mem_of_getLast?_eq_some hl)

theorem Clean_rooted (q : List Char) (hq : q.head? = some '/') : ∃ u, Clean q = '/' :: u := by
  have hne : q ≠ [] := by
    intro e
    simp [e] at hq
  unfold Clean
  rw [if_neg hne]
  simp [hq]

/-- A cleaned path starts with a slash. -/
theorem cleanPath_head (p : List Char) : (cleanPath p).head? = some '/' := by
  unfold cleanPath
  by_cases hp : p = []
  · simp [hp]
  · rw [if_neg hp]
    have hq : (if p.head? ≠ some '/' then '/' :: p else p).head? = some '/' := by
      by_cases hh : p.head? = some '/'
      · simp [hh]
      · simp [hh]
    generalize (if p.head? ≠ some '/' then '/' :: p else p) = q at hq
    obtain ⟨u, hu⟩ := Clean_rooted q hq
    simp only [hu]
    split
    · split
      · exact hq
      · simp
    · simp

end http

/-! ## Lemmas on the route table -/

namespace server

open http

theorem mux_eq : mux = Except.ok routes := by rfl

theorem findLeaf_host (host method : String) (path : List Char) (h : host ≠ "") :
    routes.findLeaf host method path = none := by
  have h2 : ("" == host) = false := by
    simpa using Ne.symm h
  simp [ServeMux.findLeaf, routes, List.find?, h2]

theorem treeMatch_host (host method : String) (path : List Char) :
    routes.treeMatch host method path = routes.matchMethodAndPath "" method path := by
  unfold ServeMux.treeMatch
  by_cases h : host = ""
  · simp [h]
  · simp [h, ServeMux.matchMethodAndPath, findLeaf_host host _ path h]

theorem methodsAt_host (host : String) (path : List Char) (h : host ≠ "") :
    routes.methodsAt host path = [] := by
  have h2 : ("" == host) = false := by
    simpa using Ne.symm h
  simp [ServeMux.methodsAt, routes, List.filter, h2]

theorem matchingMethods_host (host : String) (path : List Char) :
    routes.matchingMethods host path = routes.matchingMethods "" path := by
  by_cases h : host = ""
  · rw [h]
  · simp [ServeMux.matchingMethods, ServeMux.treeMatchingMethods, h, methodsAt_host host _ h]

theorem matchMethodAndPath_other (method : String) (path : List Char)
    (hg : method ≠ "GET") (hh : method ≠ "HEAD") :
    routes.matchMethodAndPath "" method path = none := by
  have h1 : ("GET" == method) = false := by simpa using Ne.symm hg
  simp [ServeMux.matchMethodAndPath, ServeMux.findLeaf, routes, List.find?, h1, hh]

theorem matchMethodAndPath_miss (method : String) (path : List Char)
    (h1 : matchPath ["v1", "hello"] path = false) (h2 : matchPath ["v1", "goodbye"] path = false) :
    routes.matchMethodAndPath "" method path = none := by
  simp [ServeMux.matchMethodAndPath, ServeMux.findLeaf, routes, List.find?, h1, h2]

theorem methodsAt_miss (path : List Char)
    (h1 : matchPath ["v1", "hello"] path = false) (h2 : matchPath ["v1", "goodbye"] path = false) :
    routes.methodsAt "" path = [] := by
  simp [ServeMux.methodsAt, routes, List.filter, h1, h2]

end server

/-! ## The handler `HelloHandler` -/

namespace v1

open http

/-- C1: on a response writer that starts empty (no status line written, empty body), for
every request, `HelloHandler` leaves as the full body exactly the 13 bytes of
`Hello, World!` (the concatenation of `Hello, `, the user name `World` and `!`); the only
call it makes on the writer is one `Write`, never `WriteHeader`, so the status is the
default 200. -/
theorem HelloHandler_body_and_status (r : Request) (s : Response)
    (hfresh : s.wroteHeader = false) (hempty : s.body = []) :
    (HelloHandler Response recorder r s).body
        = [72, 101, 108, 108, 111, 44, 32, 87, 111, 114, 108, 100, 33] ∧
      (HelloHandler Response recorder r s).body = bytes ("Hello, " ++ "World" ++ "!") ∧
      (HelloHandler Response recorder r s).body.length = 13 ∧
      (HelloHandler Response recorder r s).status = 200 ∧
      (HelloHandler Response recorder r s).statusCode = 200 ∧
      (HelloHandler (Response × List Call) (traced recorder) r (s, [])).2
        = [Call.Write (bytes "Hello, World!")] := by
  have hb : bytes ("Hello, " ++ "World" ++ "!")
      = [72, 101, 108, 108, 111, 44, 32, 87, 111, 114, 108, 100, 33] := by decide
  have hb2 : bytes "Hello, World!"
      = [72, 101, 108, 108, 111, 44, 32, 87, 111, 114, 108, 100, 33] := by decide
  simp [HelloHandler, recorder, traced, Response.Write, Response.WriteHeader,
    Response.statusCode, StatusOK, hfresh, hempty, hb, hb2]

theorem HelloHandler_body_and_status_witness :
    (HelloHandler Response recorder (sampleRequest "GET" "/v1/hello" (by decide))
        Response.empty).body = bytes "Hello, World!" ∧
      (HelloHandler Response recorder (sampleRequest "GET" "/v1/hello" (by decide))
        Response.empty).statusCode = 200 :=
  have h := HelloHandler_body_and_status (sampleRequest "GET" "/v1/hello" (by decide))
    Response.empty rfl rfl
  ⟨h.2.1, h.2.2.2.2.1⟩

/-- C6: invoking `HelloHandler` on the same request twice, each time on a fresh empty
response, gives the same response, status and body alike; and whatever requests were
handled before, the response to a request is the same fixed one. -/
theorem HelloHandler_idempotent (r : Request) (history : List Request) :
    invokeEach HelloHandler [r, r]
        = [HelloHandler Response recorder r Response.empty,
           HelloHandler Response recorder r Response.empty] ∧
      invokeEach HelloHandler [r, r]
        = [{ wroteHeader := true, status := 200, header := [], body := bytes "Hello, World!" },
           { wroteHeader := true, status := 200, header := [], body := bytes "Hello, World!" }] ∧
      (invokeEach HelloHandler (history ++ [r])).getLast?
        = some { wroteHeader := true, status := 200, header := [], body := bytes "Hello, World!" } := by
  refine ⟨rfl, rfl, ?_⟩
  have hmap : ∀ rs : List Request, invokeEach HelloHandler rs
      = rs.map (fun q => HelloHandler Response recorder q Response.empty) := by
    intro rs
    induction rs with
    | nil => rfl
    | cons q qs ih => simp [invokeEach, ih]
  rw [hmap, List.map_append, List.map_cons, List.map_nil, List.getLast?_concat]
  rfl

/-- C8: the response of `HelloHandler` does not depend on the request.  For any two
requests and any response writer in any state, the handler leaves the writer in the same
state and makes the same sequence of calls on it; on fresh responses the two responses
are equal. -/
theorem HelloHandler_ignores_request (r1 r2 : Request) (σ : Type) (w : ResponseWriter σ)
    (s : σ) :
    HelloHandler σ w r1 s = HelloHandler σ w r2 s ∧
      (HelloHandler (σ × List Call) (traced w) r1 (s, [])).2
        = (HelloHandler (σ × List Call) (traced w) r2 (s, [])).2 ∧
      HelloHandler Response recorder r1 Response.empty
        = HelloHandler Response recorder r2 Response.empty :=
  ⟨rfl, rfl, rfl⟩

/-- C9: for every response writer in every state, also one whose `Write` returns an error
or a short count, `HelloHandler` makes exactly one call on it, `Write` of the bytes of
`Hello, World!`: no `WriteHeader`, no change of the header map, no second `Write`.  The
state it returns is the one that `Write` left and does not depend on the `(n, err)`
returned; the handler is a total function, so it returns. -/
theorem HelloHandler_single_write (r : Request) (σ : Type) (w : ResponseWriter σ) (s : σ)
    (n : Nat) (e : String) :
    HelloHandler (σ × List Call) (traced w) r (s, [])
        = ((w.Write (bytes "Hello, World!") s).2, [Call.Write (bytes "Hello, World!")]) ∧
      HelloHandler σ w r s = (w.Write (bytes "Hello, World!") s).2 ∧
      (HelloHandler (Nat × List Call) (traced (failing n e)) r (0, [])).2
        = [Call.Write (bytes "Hello, World!")] ∧
      HelloHandler Nat (failing n e) r 0 = 1 :=
  ⟨rfl, rfl, rfl, rfl⟩

end v1

/-! ## The route table of `main` -/

namespace server

open http

theorem requestURI_of_rooted (r : Request) (p : String) (hp : r.URL.EscapedPath = p)
    (h1 : p ≠ "*") (h2 : p ≠ "") : r.RequestURI ≠ "*" := by
  intro h
  rcases r.target h with e | e
  · exact h1 (hp ▸ e)
  · exact h2 (hp ▸ e)

theorem findHandler_get (r : Request) (hm : r.Method = "GET") (p : String)
    (hp : r.URL.EscapedPath = p) (hc : cleanPath p.data = p.data)
    (e : pattern × Handler)
    (hl : routes.matchMethodAndPath "" "GET" p.data = some e) :
    routes.findHandler r = (e.2, some e.1) := by
  unfold ServeMux.findHandler
  have hne : ¬ ("GET" = "CONNECT") := by decide
  simp only [hm, hp, hne, if_false, hc, ServeMux.matchOrRedirect, treeMatch_host, hl,
    Option.isNone_some, Bool.false_eq_true, false_and, ne_eq, not_true_eq_false,
    ServeMux.leafOrError]

/-- C2: for every GET request whose path is exactly `/v1/hello`, the mux built in `main`
selects `HelloHandler` (under the pattern `GET /v1/hello`), serving the request on any
writer is running `HelloHandler` on it, and the response has the body `Hello, World!` and
the status 200, a success status. -/
theorem mux_get_hello (r : Request) (hm : r.Method = "GET")
    (hp : r.URL.EscapedPath = "/v1/hello") :
    ∃ m, mux = Except.ok m ∧
      m.findHandler r = (Handler.func v1.HelloHandler,
        some { str := "GET /v1/hello", method := "GET", host := "", segments := ["v1", "hello"] }) ∧
      (∀ (σ : Type) (w : ResponseWriter σ) (s : σ),
        m.ServeHTTP w r s = v1.HelloHandler σ w r s) ∧
      (m.respond r).body = bytes "Hello, World!" ∧
      (m.respond r).statusCode = 200 ∧
      isSuccess (m.respond r).statusCode = true := by
  have hf := findHandler_get r hm "/v1/hello" hp (by decide) _
    (show routes.matchMethodAndPath "" "GET" "/v1/hello".data = some _ from rfl)
  have hu := requestURI_of_rooted r "/v1/hello" hp (by decide) (by decide)
  have hserve : ∀ (σ : Type) (w : ResponseWriter σ) (s : σ),
      routes.ServeHTTP w r s = v1.HelloHandler σ w r s := by
    intro σ w s
    unfold ServeMux.ServeHTTP
    rw [if_neg hu, hf]
    rfl
  refine ⟨routes, mux_eq, hf, hserve, ?_, ?_, ?_⟩
  · rw [ServeMux.respond, hserve]; rfl
  · rw [ServeMux.respond, hserve]; rfl
  · rw [ServeMux.respond, hserve]; rfl

theorem mux_get_hello_witness :
    ∃ m, mux = Except.ok m ∧
      (m.respond (sampleRequest "GET" "/v1/hello" (by decide))).body = bytes "Hello, World!" ∧
      (m.respond (sampleRequest "GET" "/v1/hello" (by decide))).statusCode = 200 :=
  (mux_get_hello (sampleRequest "GET" "/v1/hello" (by decide)) rfl rfl).imp
    (fun _ h => ⟨h.1, h.2.2.2.1, h.2.2.2.2.1⟩)

/-- C5: for every GET request whose path is exactly `/v1/goodbye`, the mux built in `main`
selects `GoodbyeHandler` (under the pattern `GET /v1/goodbye`), serving the request is
running `GoodbyeHandler`, and the response is the fixed body `Goodbye, World!`, whatever
the request, with the status 200, a success status. -/
theorem mux_get_goodbye (r : Request) (hm : r.Method = "GET")
    (hp : r.URL.EscapedPath = "/v1/goodbye") :
    ∃ m, mux = Except.ok m ∧
      m.findHandler r = (Handler.func v1.GoodbyeHandler,
        some { str := "GET /v1/goodbye", method := "GET", host := "",
               segments := ["v1", "goodbye"] }) ∧
      (∀ (σ : Type) (w : ResponseWriter σ) (s : σ),
        m.ServeHTTP w r s = v1.GoodbyeHandler σ w r s) ∧
      (m.respond r).body = bytes "Goodbye, World!" ∧
      (m.respond r).statusCode = 200 ∧
      isSuccess (m.respond r).statusCode = true := by
  have hf := findHandler_get r hm "/v1/goodbye" hp (by decide) _
    (show routes.matchMethodAndPath "" "GET" "/v1/goodbye".data = some _ from rfl)
  have hu := requestURI_of_rooted r "/v1/goodbye" hp (by decide) (by decide)
  have hserve : ∀ (σ : Type) (w : ResponseWriter σ) (s : σ),
      routes.ServeHTTP w r s = v1.GoodbyeHandler σ w r s := by
    intro σ w s
    unfold ServeMux.ServeHTTP
    rw [if_neg hu, hf]
    rfl
  refine ⟨routes, mux_eq, hf, hserve, ?_, ?_, ?_⟩
  · rw [ServeMux.respond, hserve]; rfl
  · rw [ServeMux.respond, hserve]; rfl
  · rw [ServeMux.respond, hserve]; rfl

theorem mux_get_goodbye_witness :
    ∃ m, mux = Except.ok m ∧
      (m.respond (sampleRequest "GET" "/v1/goodbye" (by decide))).body
        = bytes "Goodbye, World!" ∧
      (m.respond (sampleRequest "GET" "/v1/goodbye" (by decide))).statusCode = 200 :=
  (mux_get_goodbye (sampleRequest "GET" "/v1/goodbye" (by decide)) rfl rfl).imp
    (fun _ h => ⟨h.1, h.2.2.2.1, h.2.2.2.2.1⟩)

theorem findHandler_other_method (r : Request) (hg : r.Method ≠ "GET")
    (hh : r.Method ≠ "HEAD") (p : String) (hp : r.URL.EscapedPath = p)
    (hc : cleanPath p.data = p.data)
    (ha : routes.matchingMethods "" p.data = ["GET", "HEAD"]) :
    routes.findHandler r = (Handler.methodNotAllowed ["GET", "HEAD"], none) := by
  unfold ServeMux.findHandler
  by_cases hcon : r.Method = "CONNECT"
  · simp [hcon, hp, ServeMux.matchOrRedirect, treeMatch_host, matchMethodAndPath_other,
      ServeMux.leafOrError, matchingMethods_host, ha]
  · simp [hcon, hp, hc, ServeMux.matchOrRedirect, treeMatch_host,
      matchMethodAndPath_other _ _ hg hh, ServeMux.leafOrError, matchingMethods_host, ha]

/-- C3, as amended: for every method other than GET and HEAD and each of the two registered
paths, the mux built in `main` runs no registered handler: it answers with its own
method-not-allowed handler, the status is 405 (not a success status) and the `Allow`
header lists `GET, HEAD`. -/
theorem mux_other_method (r : Request) (hg : r.Method ≠ "GET") (hh : r.Method ≠ "HEAD")
    (hp : r.URL.EscapedPath = "/v1/hello" ∨ r.URL.EscapedPath = "/v1/goodbye") :
    ∃ m, mux = Except.ok m ∧
      m.findHandler r = (Handler.methodNotAllowed ["GET", "HEAD"], none) ∧
      (∀ (σ : Type) (w : ResponseWriter σ) (s : σ),
        m.ServeHTTP w r s = (Handler.methodNotAllowed ["GET", "HEAD"]).ServeHTTP w r s) ∧
      (m.respond r).statusCode = 405 ∧
      isSuccess (m.respond r).statusCode = false ∧
      Header.Get (m.respond r).header "Allow" = "GET, HEAD" ∧
      (m.respond r).body = bytes "Method Not Allowed\n" := by
  have hf : routes.findHandler r = (Handler.methodNotAllowed ["GET", "HEAD"], none) := by
    rcases hp with hp | hp
    · exact findHandler_other_method r hg hh _ hp (by decide) (by decide)
    · exact findHandler_other_method r hg hh _ hp (by decide) (by decide)
  have hu : r.RequestURI ≠ "*" := by
    rcases hp with hp | hp
    · exact requestURI_of_rooted r _ hp (by decide) (by decide)
    · exact requestURI_of_rooted r _ hp (by decide) (by decide)
  have hserve : ∀ (σ : Type) (w : ResponseWriter σ) (s : σ),
      routes.ServeHTTP w r s = (Handler.methodNotAllowed ["GET", "HEAD"]).ServeHTTP w r s := by
    intro σ w s
    unfold ServeMux.ServeHTTP
    rw [if_neg hu, hf]
  refine ⟨routes, mux_eq, hf, hserve, ?_, ?_, ?_, ?_⟩
  · rw [ServeMux.respond, hserve]; rfl
  · rw [ServeMux.respond, hserve]; rfl
  · rw [ServeMux.respond, hserve]; rfl
  · rw [ServeMux.respond, hserve]; rfl

theorem mux_other_method_witness :
    ∃ m, mux = Except.ok m ∧
      (m.respond (sampleRequest "POST" "/v1/hello" (by decide))).statusCode = 405 :=
  (mux_other_method (sampleRequest "POST" "/v1/hello" (by decide)) (by decide) (by decide)
    (Or.inl rfl)).imp (fun _ h => ⟨h.1, h.2.2.2.1⟩)

/-- C3 as stated fails for HEAD: a HEAD request to `/v1/hello` is not GET, yet the mux
built in `main` selects the registered `HelloHandler` for it and the status is 200. -/
theorem mux_head_hello_runs_handler :
    (sampleRequest "HEAD" "/v1/hello" (by decide)).Method ≠ "GET" ∧
      ∃ m, mux = Except.ok m ∧
        m.findHandler (sampleRequest "HEAD" "/v1/hello" (by decide))
          = (Handler.func v1.HelloHandler,
             some { str := "GET /v1/hello", method := "GET", host := "",
                    segments := ["v1", "hello"] }) ∧
        (m.respond (sampleRequest "HEAD" "/v1/hello" (by decide))).statusCode = 200 ∧
        isSuccess (m.respond (sampleRequest "HEAD" "/v1/hello" (by decide))).statusCode = true :=
  ⟨by decide, routes, mux_eq, rfl, by decide, by decide⟩

theorem matchPath_miss (seg : String) (p : List Char) (hseg : seg.data ≠ ['/'])
    (hclean : cleanPath p = p) (hpct : '%' ∉ p) (hne : p ≠ '/' :: ("v1".data ++ '/' :: seg.data)) :
    matchPath ["v1", seg] p = false := by
  cases hm : matchPath ["v1", seg] p with
  | false => rfl
  | true =>
    exfalso
    obtain ⟨c, hc⟩ := matchPath_pair "v1" seg p (by decide) hseg hpct hm
    have hhead := cleanPath_head p
    rw [hclean, hc] at hhead
    simp only [List.head?_cons, Option.some.injEq] at hhead
    exact hne (hhead ▸ hc)

theorem matchPath_miss_slash (seg : String) (p : List Char) (hseg : seg.data ≠ ['/']) :
    matchPath ["v1", seg] (p ++ ['/']) = false := by
  cases hm : matchPath ["v1", seg] (p ++ ['/']) with
  | false => rfl
  | true => exact absurd (List.getLast?_concat p) (matchPath_pair_last "v1" seg _ hseg hm)

theorem findHandler_miss (r : Request)
    (hcanon : r.Method = "CONNECT" ∨ cleanPath r.URL.EscapedPath.data = r.URL.EscapedPath.data)
    (h1 : matchPath ["v1", "hello"] r.URL.EscapedPath.data = false)
    (h2 : matchPath ["v1", "goodbye"] r.URL.EscapedPath.data = false) :
    routes.findHandler r = (Handler.NotFoundHandler, none) := by
  have h3 := matchPath_miss_slash "hello" r.URL.EscapedPath.data (by decide)
  have h4 := matchPath_miss_slash "goodbye" r.URL.EscapedPath.data (by decide)
  have hmm : routes.matchingMethods "" r.URL.EscapedPath.data = [] := by
    simp [ServeMux.matchingMethods, ServeMux.treeMatchingMethods, methodsAt_miss _ h1 h2,
      methodsAt_miss _ h3 h4, sortedKeys]
  unfold ServeMux.findHandler
  by_cases hcon : r.Method = "CONNECT"
  · simp [hcon, ServeMux.matchOrRedirect, treeMatch_host, matchMethodAndPath_miss _ _ h1 h2,
      matchMethodAndPath_miss _ _ h3 h4, ServeMux.leafOrError, matchingMethods_host, hmm]
  · have hclean := hcanon.resolve_left hcon
    simp [hcon, hclean, ServeMux.matchOrRedirect, treeMatch_host,
      matchMethodAndPath_miss _ _ h1 h2, matchMethodAndPath_miss _ _ h3 h4,
      ServeMux.leafOrError, matchingMethods_host, hmm]

theorem findHandler_unclean (m : ServeMux) (r : Request) (hcon : r.Method ≠ "CONNECT")
    (hne : cleanPath r.URL.EscapedPath.data ≠ r.URL.EscapedPath.data) :
    m.findHandler r = (Handler.RedirectHandler 301, none) := by
  unfold ServeMux.findHandler
  simp only [if_neg hcon, if_pos hne]
  split
  · rfl
  · rfl

theorem requestURI_of_clean (r : Request)
    (hclean : cleanPath r.URL.EscapedPath.data = r.URL.EscapedPath.data) :
    r.RequestURI ≠ "*" := by
  intro h
  rcases r.target h with e | e
  · rw [e] at hclean
    exact absurd hclean (by decide)
  · rw [e] at hclean
    exact absurd hclean (by decide)

theorem respond_asterisk (m : ServeMux) (r : Request) (h : r.RequestURI = "*") :
    (m.respond r).statusCode = 400 := by
  unfold ServeMux.respond ServeMux.ServeHTTP
  rw [if_pos h]
  cases r.ProtoAtLeast 1 1 <;> rfl

theorem respond_of_findHandler (m : ServeMux) (r : Request) (h : Handler) (pat : Option pattern)
    (hu : r.RequestURI ≠ "*") (hf : m.findHandler r = (h, pat)) (σ : Type)
    (w : ResponseWriter σ) (s : σ) : m.ServeHTTP w r s = h.ServeHTTP w r s := by
  unfold ServeMux.ServeHTTP
  rw [if_neg hu, hf]

/-- C4, as amended.  Take any request, of any method, host and path.

* When its path is in canonical form (equal to its cleaned form) or its method is CONNECT,
  and neither registered pattern matches the path (its segments, percent-decoded, are not
  `v1`, `hello` nor `v1`, `goodbye`), the mux built in `main` selects the not-found
  handler, and unless the request target is `*` the response is 404 with the not-found
  body.
* In particular this holds for every canonical path without a percent sign that is neither
  `/v1/hello` nor `/v1/goodbye`.
* When its path is not in canonical form and its method is not CONNECT, the mux selects
  its redirect handler with status 301, whatever the path; unless the target is `*` that
  is the status of the response.
* When its target is `*`, the response is 400.
* In each of these cases no registered handler is selected and the status is not a
  success status. -/
theorem mux_unregistered_path (r : Request) :
    ∃ m, mux = Except.ok m ∧
      ((r.Method = "CONNECT" ∨ cleanPath r.URL.EscapedPath.data = r.URL.EscapedPath.data) →
        matchPath ["v1", "hello"] r.URL.EscapedPath.data = false →
        matchPath ["v1", "goodbye"] r.URL.EscapedPath.data = false →
        m.findHandler r = (Handler.NotFoundHandler, none) ∧
        (r.RequestURI ≠ "*" →
          (∀ (σ : Type) (w : ResponseWriter σ) (s : σ), m.ServeHTTP w r s = NotFound w r s) ∧
          (m.respond r).statusCode = 404 ∧
          (m.respond r).body = bytes "404 page not found\n")) ∧
      (cleanPath r.URL.EscapedPath.data = r.URL.EscapedPath.data →
        '%' ∉ r.URL.EscapedPath.data →
        r.URL.EscapedPath ≠ "/v1/hello" → r.URL.EscapedPath ≠ "/v1/goodbye" →
        m.findHandler r = (Handler.NotFoundHandler, none) ∧
        (∀ (σ : Type) (w : ResponseWriter σ) (s : σ), m.ServeHTTP w r s = NotFound w r s) ∧
        (m.respond r).statusCode = 404 ∧
        (m.respond r).body = bytes "404 page not found\n") ∧
      (r.Method ≠ "CONNECT" →
        cleanPath r.URL.EscapedPath.data ≠ r.URL.EscapedPath.data →
        m.findHandler r = (Handler.RedirectHandler 301, none) ∧
        (r.RequestURI ≠ "*" →
          (∀ (σ : Type) (w : ResponseWriter σ) (s : σ),
            m.ServeHTTP w r s = w.WriteHeader 301 s) ∧
          (m.respond r).statusCode = 301)) ∧
      (r.RequestURI = "*" → (m.respond r).statusCode = 400) ∧
      (matchPath ["v1", "hello"] r.URL.EscapedPath.data = false →
        matchPath ["v1", "goodbye"] r.URL.EscapedPath.data = false →
        (∀ (f : HandlerFunc) (pat : Option pattern), m.findHandler r ≠ (Handler.func f, pat)) ∧
        ((m.respond r).statusCode = 404 ∨ (m.respond r).statusCode = 301 ∨
          (m.respond r).statusCode = 400) ∧
        isSuccess (m.respond r).statusCode = false) := by
  have part1 : (r.Method = "CONNECT" ∨
        cleanPath r.URL.EscapedPath.data = r.URL.EscapedPath.data) →
      matchPath ["v1", "hello"] r.URL.EscapedPath.data = false →
      matchPath ["v1", "goodbye"] r.URL.EscapedPath.data = false →
      routes.findHandler r = (Handler.NotFoundHandler, none) ∧
      (r.RequestURI ≠ "*" →
        (∀ (σ : Type) (w : ResponseWriter σ) (s : σ), routes.ServeHTTP w r s = NotFound w r s) ∧
        (routes.respond r).statusCode = 404 ∧
        (routes.respond r).body = bytes "404 page not found\n") := by
    intro hcanon h1 h2
    have hf := findHandler_miss r hcanon h1 h2
    refine ⟨hf, fun hu => ?_⟩
    have hserve : ∀ (σ : Type) (w : ResponseWriter σ) (s : σ),
        routes.ServeHTTP w r s = NotFound w r s :=
      fun σ w s => respond_of_findHandler routes r _ _ hu hf σ w s
    refine ⟨hserve, ?_, ?_⟩
    · rw [ServeMux.respond, hserve]; rfl
    · rw [ServeMux.respond, hserve]; rfl
  have part3 : r.Method ≠ "CONNECT" →
      cleanPath r.URL.EscapedPath.data ≠ r.URL.EscapedPath.data →
      routes.findHandler r = (Handler.RedirectHandler 301, none) ∧
      (r.RequestURI ≠ "*" →
        (∀ (σ : Type) (w : ResponseWriter σ) (s : σ),
          routes.ServeHTTP w r s = w.WriteHeader 301 s) ∧
        (routes.respond r).statusCode = 301) := by
    intro hcon hne
    have hf := findHandler_unclean routes r hcon hne
    refine ⟨hf, fun hu => ?_⟩
    have hserve : ∀ (σ : Type) (w : ResponseWriter σ) (s : σ),
        routes.ServeHTTP w r s = w.WriteHeader 301 s :=
      fun σ w s => respond_of_findHandler routes r _ _ hu hf σ w s
    refine ⟨hserve, ?_⟩
    rw [ServeMux.respond, hserve]; rfl
  refine ⟨routes, mux_eq, part1, ?_, part3, respond_asterisk routes r, ?_⟩
  · intro hclean hpct h1 h2
    have e1 : r.URL.EscapedPath.data ≠ "/v1/hello".data := fun e => h1 (String.ext e)
    have e2 : r.URL.EscapedPath.data ≠ "/v1/goodbye".data := fun e => h2 (String.ext e)
    have h := part1 (Or.inr hclean)
      (matchPath_miss "hello" _ (by decide) hclean hpct e1)
      (matchPath_miss "goodbye" _ (by decide) hclean hpct e2)
    exact ⟨h.1, h.2 (requestURI_of_clean r hclean)⟩
  · intro h1 h2
    by_cases hcanon : r.Method = "CONNECT" ∨
        cleanPath r.URL.EscapedPath.data = r.URL.EscapedPath.data
    · have h := part1 hcanon h1 h2
      refine ⟨fun f pat e => ?_, ?_⟩
      · rw [h.1] at e
        cases e
      · by_cases hu : r.RequestURI = "*"
        · have hs := respond_asterisk routes r hu
          exact ⟨Or.inr (Or.inr hs), by rw [hs]; rfl⟩
        · have hs := (h.2 hu).2.1
          exact ⟨Or.inl hs, by rw [hs]; rfl⟩
    · have hcon : r.Method ≠ "CONNECT" := fun e => hcanon (Or.inl e)
      have hne : cleanPath r.URL.EscapedPath.data ≠ r.URL.EscapedPath.data :=
        fun e => hcanon (Or.inr e)
      have h := part3 hcon hne
      refine ⟨fun f pat e => ?_, ?_⟩
      · rw [h.1] at e
        cases e
      · by_cases hu : r.RequestURI = "*"
        · have hs := respond_asterisk routes r hu
          exact ⟨Or.inr (Or.inr hs), by rw [hs]; rfl⟩
        · have hs := (h.2 hu).2
          exact ⟨Or.inr (Or.inl hs), by rw [hs]; rfl⟩

theorem mux_unregistered_path_witness :
    (∃ m, mux = Except.ok m ∧
      (m.respond (sampleRequest "GET" "/v1/other" (by decide))).statusCode = 404) ∧
    (∃ m, mux = Except.ok m ∧
      (m.respond (sampleRequest "GET" "/v1/other%20x" (by decide))).statusCode = 404) ∧
    (∃ m, mux = Except.ok m ∧
      (m.respond (sampleRequest "CONNECT" "//v1/hello" (by decide))).statusCode = 404) ∧
    (∃ m, mux = Except.ok m ∧
      (m.respond (sampleRequest "POST" "/v1/../v1/hello" (by decide))).statusCode = 301) :=
  ⟨(mux_unregistered_path (sampleRequest "GET" "/v1/other" (by decide))).imp
      (fun _ h => ⟨h.1, (h.2.2.1 (by decide) (by decide) (by decide) (by decide)).2.2.1⟩),
   (mux_unregistered_path (sampleRequest "GET" "/v1/other%20x" (by decide))).imp
      (fun _ h => ⟨h.1, ((h.2.1 (Or.inr (by decide)) (by decide) (by decide)).2
        (by decide)).2.1⟩),
   (mux_unregistered_path (sampleRequest "CONNECT" "//v1/hello" (by decide))).imp
      (fun _ h => ⟨h.1, ((h.2.1 (Or.inl rfl) (by decide) (by decide)).2 (by decide)).2.1⟩),
   (mux_unregistered_path (sampleRequest "POST" "/v1/../v1/hello" (by decide))).imp
      (fun _ h => ⟨h.1, ((h.2.2.2.1 (by decide) (by decide)).2 (by decide)).2⟩)⟩

/-- The near misses of the registered paths are answered 404 as well: a trailing slash,
the parent directory and the root. -/
theorem mux_near_misses :
    (routes.respond (sampleRequest "GET" "/v1/hello/" (by decide))).statusCode = 404 ∧
      (routes.respond (sampleRequest "GET" "/v1" (by decide))).statusCode = 404 ∧
      (routes.respond (sampleRequest "GET" "/" (by decide))).statusCode = 404 ∧
      (routes.respond (sampleRequest "POST" "/v1/other" (by decide))).statusCode = 404 := by
  decide

/-- Segments are percent-decoded before they are compared, so the path `/v1/hell%6F` reaches `HelloHandler`, while `/v1%2Fhello`,
whose decoded form is `/v1/hello`, is not found. -/
theorem mux_percent_encoded_paths :
    routes.findHandler (sampleRequest "GET" "/v1/hell%6F" (by decide))
        = (Handler.func v1.HelloHandler,
           some ⟨"GET /v1/hello", "GET", "", ["v1", "hello"]⟩) ∧
      (routes.respond (sampleRequest "GET" "/v1/hell%6F" (by decide))).statusCode = 200 ∧
      (routes.respond (sampleRequest "GET" "/v1%2Fhello" (by decide))).statusCode = 404 :=
  ⟨rfl, by decide, by decide⟩

/-- A request whose target is `*` is answered 400 before any lookup. -/
theorem mux_asterisk_target :
    (routes.respond optionsAsterisk).statusCode = 400 := by
  decide

/-- C4 as stated fails for a path that is not in canonical form: the path `//v1/hello` is
neither `/v1/hello` nor `/v1/goodbye`, and the mux built in `main` answers a GET request
for it with the redirect handler, status 301 and not 404. -/
theorem mux_unclean_path_redirects :
    (sampleRequest "GET" "//v1/hello" (by decide)).URL.EscapedPath ≠ "/v1/hello" ∧
      (sampleRequest "GET" "//v1/hello" (by decide)).URL.EscapedPath ≠ "/v1/goodbye" ∧
      ∃ m, mux = Except.ok m ∧
        m.findHandler (sampleRequest "GET" "//v1/hello" (by decide))
          = (Handler.RedirectHandler 301, none) ∧
        (m.respond (sampleRequest "GET" "//v1/hello" (by decide))).statusCode = 301 ∧
        (m.respond (sampleRequest "GET" "//v1/hello" (by decide))).statusCode ≠ 404 :=
  ⟨by decide, by decide, routes, mux_eq, rfl, by decide, by decide⟩

/-- C7, as amended: whatever `http.ListenAndServe` returns, a bind error included, `main`
drops the result and returns: the process ends with status 0 and nothing is reported on
standard error; the call made was `ListenAndServe(":8080", mux)`. -/
theorem main_drops_listen_result (ListenAndServe : String → ServeMux → error) :
    (main ListenAndServe).exitCode = 0 ∧
      (main ListenAndServe).stderr = [] ∧
      ∃ m, mux = Except.ok m ∧ (main ListenAndServe).listen = some (":8080", m) :=
  ⟨rfl, rfl, routes, mux_eq, rfl⟩

/-- C7 as stated fails: when `ListenAndServe` returns the error of a port already in use,
`main` still ends with status 0 and reports nothing. -/
theorem main_bind_error_exits_zero :
    (∃ m, (main (fun _ _ => some "listen tcp :8080: bind: address already in use")).listen
          = some (":8080", m) ∧
        (fun (_ : String) (_ : ServeMux) =>
          (some "listen tcp :8080: bind: address already in use" : error)) ":8080" m ≠ none) ∧
      ¬ ((main (fun _ _ => some "listen tcp :8080: bind: address already in use")).exitCode ≠ 0 ∨
         (main (fun _ _ => some "listen tcp :8080: bind: address already in use")).stderr ≠ []) :=
  ⟨⟨routes, rfl, by simp⟩, by decide⟩

/-- C10: the mux that `main` builds, starting from a fresh mux without patterns, holds
exactly two registrations, `GET /v1/hello` for `HelloHandler` and `GET /v1/goodbye` for
`GoodbyeHandler`.  The two patterns are distinct and do not conflict, so neither
registration panics; no path is matched by both, so at most one registration applies to
any request; and `main` passes that mux, with the address `:8080`, to `ListenAndServe`. -/
theorem main_route_table (ListenAndServe : String → ServeMux → error) :
    NewServeMux.patterns = [] ∧
    ∃ m, mux = Except.ok m ∧
      m.patterns = [
        ({ str := "GET /v1/hello", method := "GET", host := "", segments := ["v1", "hello"] },
          Handler.func v1.HelloHandler),
        ({ str := "GET /v1/goodbye", method := "GET", host := "", segments := ["v1", "goodbye"] },
          Handler.func v1.GoodbyeHandler)] ∧
      m.patterns.length = 2 ∧
      parsePattern "GET /v1/hello" = Except.ok
        { str := "GET /v1/hello", method := "GET", host := "", segments := ["v1", "hello"] } ∧
      parsePattern "GET /v1/goodbye" = Except.ok
        { str := "GET /v1/goodbye", method := "GET", host := "", segments := ["v1", "goodbye"] } ∧
      (∀ p1 p2 : pattern, parsePattern "GET /v1/hello" = Except.ok p1 →
        parsePattern "GET /v1/goodbye" = Except.ok p2 →
        p1 ≠ p2 ∧ p2.conflictsWith p1 = false ∧ p1.conflictsWith p2 = false ∧
        p1.comparePathsAndMethods p2 = relationship.disjoint) ∧
      (∀ path : List Char,
        ¬ (matchPath ["v1", "hello"] path = true ∧ matchPath ["v1", "goodbye"] path = true)) ∧
      (∀ path : List Char,
        (m.patterns.filter (fun e => matchPath e.1.segments path)).length ≤ 1) ∧
      (main ListenAndServe).listen = some (":8080", m) := by
  have hdisj : ∀ path : List Char,
      ¬ (matchPath ["v1", "hello"] path = true ∧ matchPath ["v1", "goodbye"] path = true) := by
    intro path h
    cases path with
    | nil => simp [matchPath] at h
    | cons c t =>
      simp only [matchPath, List.cons_ne_nil, if_false, Bool.and_eq_true, decide_eq_true_eq,
        reduceCtorEq] at h
      obtain ⟨⟨-, ha⟩, ⟨-, hb⟩⟩ := h
      by_cases hr : (firstSegment (c :: t)).2 = []
      · simp [hr] at ha
      · simp only [hr, if_false, Bool.and_eq_true, decide_eq_true_eq] at ha hb
        exact absurd (ha.1.symm.trans hb.1) (by decide)
  refine ⟨rfl, routes, mux_eq, rfl, rfl, rfl, rfl, ?_, hdisj, ?_, rfl⟩
  · intro p1 p2 h1 h2
    have q1 : parsePattern "GET /v1/hello"
        = Except.ok ⟨"GET /v1/hello", "GET", "", ["v1", "hello"]⟩ := rfl
    have q2 : parsePattern "GET /v1/goodbye"
        = Except.ok ⟨"GET /v1/goodbye", "GET", "", ["v1", "goodbye"]⟩ := rfl
    have e1 := Except.ok.inj (h1.symm.trans q1)
    have e2 := Except.ok.inj (h2.symm.trans q2)
    subst e1 e2
    exact ⟨by decide, by decide, by decide, by decide⟩
  · intro path
    have h := hdisj path
    cases ha : matchPath ["v1", "hello"] path <;> cases hb : matchPath ["v1", "goodbye"] path
    · simp [routes, List.filter, ha, hb]
    · simp [routes, List.filter, ha, hb]
    · simp [routes, List.filter, ha, hb]
    · exact absurd ⟨ha, hb⟩ h

end server
